import Mathlib

/-!
Verification development for the `workert` worker: a service that accepts
TypeScript source text over HTTP, type-checks and lowers it with an external
compiler engine, and runs the lowered code in an isolated dynamic worker.

The definitions below are a shallow embedding of `src/worker.ts` (the request
orchestrator, entry-module synthesizer and sandbox dispatch) and
`src/compiler.ts` (the compiler frontend adapter: `compileCode`,
`formatDiagnostics`).  External collaborators (the TypeScript engine, the JSON
parser of the host, the sandbox loader, the Durable-Object demo route) are
modelled as explicit parameters (oracles) of the embedded functions.
-/

/-- Diagnostic category, the string union
`"error" | "warning" | "suggestion" | "message"` of `src/compiler.ts`. -/
inductive Category where
  | error
  | warning
  | suggestion
  | message
deriving DecidableEq, Repr

/-- The normalized diagnostic record of `src/compiler.ts` (`interface Diagnostic`):
message text, numeric TS code, category, optional 1-indexed line and
0-indexed column. -/
structure Diagnostic where
  message : String
  code : Nat
  category : Category
  line : Option Nat
  column : Option Nat
deriving DecidableEq, Repr

/-- `interface CompileResult` of `src/compiler.ts`: lowered JS (empty string on
failure), the diagnostics list, and the success flag. -/
structure CompileResult where
  js : String
  diagnostics : List Diagnostic
  success : Bool
deriving DecidableEq, Repr

/-- Engine-native chained diagnostic message (`ts.DiagnosticMessageChain`):
a message plus an optional list of nested chains (absent list modelled as `[]`,
which the `if (messageText.next)` loop of the source treats the same way). -/
inductive DiagnosticMessageChain where
  | node : String → List DiagnosticMessageChain → DiagnosticMessageChain

/-- Engine-native `messageText`: either a plain string or a message chain. -/
inductive MessageText where
  | str : String → MessageText
  | chain : DiagnosticMessageChain → MessageText

/-- The numeric value of `ts.DiagnosticCategory.Warning`. -/
def tsCategoryWarning : Nat := 0

/-- The numeric value of `ts.DiagnosticCategory.Error`. -/
def tsCategoryError : Nat := 1

/-- The numeric value of `ts.DiagnosticCategory.Suggestion`. -/
def tsCategorySuggestion : Nat := 2

/-- The numeric value of `ts.DiagnosticCategory.Message`. -/
def tsCategoryMessage : Nat := 3

/-- An engine-native diagnostic (`ts.Diagnostic`) as consumed by
`compileCode`: the fields the adapter reads are `messageText`, `code`,
`category` (numeric enum), and the presence of `file` together with a defined
`start` offset. -/
structure RawDiagnostic where
  messageText : MessageText
  code : Nat
  category : Nat
  hasFile : Bool
  start : Option Nat

/-- Result of `program.emit`: the sequence of `(fileName, text)` pairs passed
to the write callback, plus the emit diagnostics. -/
structure EmitResult where
  writes : List (String × String)
  diagnostics : List RawDiagnostic

/-- The external TypeScript engine as seen by `compileCode`: pre-emit
diagnostics (`ts.getPreEmitDiagnostics`) and the emit pass (`program.emit`),
both as functions of the single in-memory source unit. -/
structure Engine where
  preEmit : String → List RawDiagnostic
  emit : String → EmitResult

mutual

/-- Mirrors `flattenDiagnosticMessage` on a `DiagnosticMessageChain`: the chain
head message followed by each nested chain flattened behind `"\n  "`. -/
def flattenChain : DiagnosticMessageChain → String
  | .node t next => t ++ flattenChainList next

/-- The loop `for (const next of messageText.next)` of
`flattenDiagnosticMessage`, appending `"\n  " + flatten(next)` per element. -/
def flattenChainList : List DiagnosticMessageChain → String
  | [] => ""
  | c :: cs => "\n  " ++ flattenChain c ++ flattenChainList cs

end

/-- `flattenDiagnosticMessage` of `src/compiler.ts`: a plain string is returned
as-is, a chain is flattened recursively. -/
def flattenDiagnosticMessage : MessageText → String
  | .str s => s
  | .chain c => flattenChain c

/-- `getCategoryString` of `src/compiler.ts`: the switch over
`ts.DiagnosticCategory` with default `"error"`. -/
def getCategoryString (category : Nat) : Category :=
  if category = tsCategoryError then Category.error
  else if category = tsCategoryWarning then Category.warning
  else if category = tsCategorySuggestion then Category.suggestion
  else if category = tsCategoryMessage then Category.message
  else Category.error

/-- Modelled from the spec: the engine primitive
`sourceFile.getLineAndCharacterOfPosition` (not part of this repository) —
"engine-native positions are converted from an internal absolute offset to
1-indexed line / 0-indexed column using the source unit's own line-break
index".  The 0-indexed line is the number of line breaks before the offset and
the 0-indexed character is the distance from the last line break. -/
def lineAndCharacterOfPosition (src : String) (pos : Nat) : Nat × Nat :=
  let before := src.toList.take pos
  (before.count '\n', (before.reverse.takeWhile (fun c => c ≠ '\n')).length)

/-- The per-diagnostic conversion inside `compileCode` (`allDiagnostics.map`):
position converted when `d.file && d.start !== undefined`, line made 1-indexed,
column kept 0-indexed. -/
def convertDiagnostic (src : String) (d : RawDiagnostic) : Diagnostic :=
  let lc : Option (Nat × Nat) :=
    match d.hasFile, d.start with
    | true, some s => some (lineAndCharacterOfPosition src s)
    | _, _ => none
  { message := flattenDiagnosticMessage d.messageText
    code := d.code
    category := getCategoryString d.category
    line := lc.map (fun p => p.1 + 1)
    column := lc.map (fun p => p.2) }

/-- The conversion applied to emit diagnostics inside `compileCode`
(`emitResult.diagnostics` loop): no position fields are produced. -/
def convertEmitDiagnostic (d : RawDiagnostic) : Diagnostic :=
  { message := flattenDiagnosticMessage d.messageText
    code := d.code
    category := getCategoryString d.category
    line := none
    column := none }

/-- Modelled from the spec: the host primitive `String.prototype.endsWith`
(used on the emitted file name inside `compileCode`). -/
def jsEndsWith (s p : String) : Bool := p.toList.isSuffixOf s.toList

/-- The write-callback accumulation of `program.emit` inside `compileCode`:
`js` starts empty and is overwritten by each emitted file whose name ends in
`".js"`. -/
def jsFromWrites (writes : List (String × String)) : String :=
  writes.foldl (fun acc w => if jsEndsWith w.1 ".js" then w.2 else acc) ""

/-- `compileCode` of `src/compiler.ts` instrumented with whether the emit pass
was attempted: converts pre-emit diagnostics, gates emission on the absence of
error-category pre-emit diagnostics, appends emit diagnostics, and reports
`success := !hasErrors` from the pre-emit gate alone. -/
def compileCodeAux (eng : Engine) (code : String) : CompileResult × Bool :=
  let diagnostics := (eng.preEmit code).map (convertDiagnostic code)
  let hasErrors := diagnostics.any (fun d => d.category == Category.error)
  if hasErrors then
    ({ js := "", diagnostics := diagnostics, success := !hasErrors }, false)
  else
    let emitResult := eng.emit code
    ({ js := jsFromWrites emitResult.writes
       diagnostics := diagnostics ++ emitResult.diagnostics.map convertEmitDiagnostic
       success := !hasErrors }, true)

/-- `compileCode` of `src/compiler.ts` (the observable `CompileResult`). -/
def compileCode (eng : Engine) (code : String) : CompileResult :=
  (compileCodeAux eng code).1

/-- The string name of a category (the TS union member literal). -/
def categoryName : Category → String
  | Category.error => "error"
  | Category.warning => "warning"
  | Category.suggestion => "suggestion"
  | Category.message => "message"

/-- `formatDiagnostics` of `src/compiler.ts`: one line
`<prefix> TS<code><location>: <message>` per diagnostic joined by newlines,
where `location` is `:<line>:<column>` when `line` is defined (an undefined
`column` would interpolate as the string `"undefined"`, as in JS). -/
def formatDiagnostics (diagnostics : List Diagnostic) : String :=
  String.intercalate "\n"
    (diagnostics.map (fun d =>
      let location :=
        match d.line with
        | some l =>
            ":" ++ toString l ++ ":" ++
              (match d.column with
               | some c => toString c
               | none => "undefined")
        | none => ""
      let pfx :=
        if d.category == Category.error then "error"
        else if d.category == Category.warning then "warning"
        else categoryName d.category
      pfx ++ " TS" ++ toString d.code ++ location ++ ": " ++ d.message))

/-- Modelled from the spec: the documented line format
`<category> TS<code>[:<line>:<column>]: <message>`, the `:<line>:<column>`
part present exactly when the diagnostic has a position. -/
def specDiagnosticLine (d : Diagnostic) : String :=
  categoryName d.category ++ " TS" ++ toString d.code ++
    (match d.line, d.column with
     | some l, some c => ":" ++ toString l ++ ":" ++ toString c
     | _, _ => "") ++
    ": " ++ d.message

/-- A JSON value as produced by the host JSON parser (`JSON.parse`). -/
inductive JsValue where
  | null
  | bool (b : Bool)
  | num (n : Int)
  | str (s : String)
  | arr (elems : List JsValue)
  | obj (fields : List (String × JsValue))

/-- Dropping leading and trailing whitespace from a character list. -/
def trimList (l : List Char) : List Char :=
  ((l.dropWhile Char.isWhitespace).reverse.dropWhile Char.isWhitespace).reverse

/-- Modelled from the spec: the host primitive `String.prototype.trim`
(used at `worker.ts` line 63 and 103), removing leading and trailing
whitespace.  The whitespace class is modelled by `Char.isWhitespace`. -/
def jsTrim (s : String) : String := String.mk (trimList s.toList)

/-- Modelled from the spec: the host primitive `String.prototype.startsWith`
(used at `worker.ts` line 54 on the raw request body). -/
def jsStartsWith (s p : String) : Bool := p.toList.isPrefixOf s.toList

/-- Property read `parsed.code` on the value returned by `JSON.parse`:
reading a property of `null` throws, reading from a non-object yields
`undefined` (here `none`), reading from an object looks the key up. -/
def jsGetField : JsValue → String → Except String (Option JsValue)
  | JsValue.null, _ => Except.error "TypeError: cannot read properties of null"
  | JsValue.obj fields, key =>
      Except.ok ((fields.find? (fun f => f.1 == key)).map (fun f => f.2))
  | _, _ => Except.ok none

/-- The call `code.trim()` at `worker.ts` line 63: succeeds on a string value,
throws a `TypeError` when `code` is `undefined` or a non-string JSON value. -/
def jsTrimCall : Option JsValue → Except String String
  | some (JsValue.str s) => Except.ok (jsTrim s)
  | some _ => Except.error "TypeError: code.trim is not a function"
  | none => Except.error "TypeError: cannot read properties of undefined"

/-- The public response envelope (`SuccessResponse | ErrorResponse` of
`worker.ts`): success with a result value, or failure with an error string and
an optional diagnostics list. -/
inductive ApiResponse where
  | success (result : JsValue)
  | failure (error : String) (diagnostics : Option (List Diagnostic))

/-- The observable body of a `Response` built by the handler: empty
(`new Response(null, ...)`), an HTML page, or a serialized JSON envelope. -/
inductive RespBody where
  | empty
  | html (content : String)
  | json (data : ApiResponse)

/-- The observable part of a host `Response`: status, headers, body. -/
structure HttpResponse where
  status : Nat
  headers : List (String × String)
  body : RespBody

/-- The observable part of an inbound request as read by the handler: method,
URL pathname, the `code` search parameter, and the body text. -/
structure HttpRequest where
  method : String
  pathname : String
  queryCode : Option String
  body : String

/-- The handler's outcome, instrumented with the collaborator calls it made:
the response, the arguments `compileCode` was invoked with, and the number of
sandbox dispatches (`env.LOADER.get` / `entrypoint.fetch` invocations). -/
structure HandlerOut where
  response : HttpResponse
  compileCalls : List String
  dispatched : Nat

/-- The external collaborators of the handler: the TypeScript engine behind
`compileCode`, the host `JSON.parse`, the sandbox loader-and-invoke step
(given the synthesized module text, returning the status and parsed JSON body
of the dynamic worker's response, or a thrown error's message), and the
out-of-scope `/stub-stub` Durable-Object demo route. -/
structure Platform where
  engine : Engine
  jsonParse : String → Except String JsValue
  sandboxRun : String → Except String (Nat × ApiResponse)
  stubDemo : HttpRequest → Except String HttpResponse

/-- `jsonResponse` of `worker.ts`: a JSON body with the given status and the
content-type plus permissive cross-origin headers. -/
def jsonResponse (data : ApiResponse) (status : Nat) : HttpResponse :=
  { status := status
    headers := [("Content-Type", "application/json"),
                ("Access-Control-Allow-Origin", "*")]
    body := RespBody.json data }

/-- The headers of the CORS-preflight response (`worker.ts` lines 38-44). -/
def corsPreflightHeaders : List (String × String) :=
  [("Access-Control-Allow-Origin", "*"),
   ("Access-Control-Allow-Methods", "POST, OPTIONS"),
   ("Access-Control-Allow-Headers", "Content-Type")]

/-- The `initialCode` sample shown on the GET info page
(`worker.ts` lines 66-79). -/
def initialCode : String :=
  "interface User \x7b\n  name: string;\n  age: number;\n\x7d\n\nfunction greet(user: User): string \x7b\n  return \x60Hello $\x7buser.name\x7d, you are $\x7buser.age\x7d years old.\x60;\n\x7d\n\nasync function codemode() \x7b\n  return greet(\x7bname: \x27John\x27, age: 40\x7d);\n\x7d"

/-- The HTML info page returned for a GET request without code
(`worker.ts` lines 80-96). -/
def infoPageHtml : String :=
  "\n        <main style=\"display: flex; flex-direction: column; max-width: 600px; margin: 12px;\">\n          <h2>write some typescript code below</h2>\n          <p>the code will be executed in a dynamic worker. you must define a function called <code>codemode</code>.</p>\n          <textarea\n            id=\"tscode\"\n            rows=\"20\"\n            cols=\"80\"\n          >" ++ initialCode ++ "</textarea>\n          <button\n            id=\"run\"\n            style=\"display: block; font-size: xx-large;\"\n            onclick=\"document.getElementById(\x27result\x27).src = \x27/?code=\x27 + encodeURIComponent(document.getElementById(\x27tscode\x27).value);\"\n          >run</button>\n          <iframe id=\"result\" style=\"width: 100%; height: 500px; border: 1px solid #ccc;\"></iframe>\n        </main>\n      "

/-- The entry-module synthesizer (`wrappedJs`, `worker.ts` lines 121-148):
pure text composition wrapping the lowered body in the fixed harness that
invokes `codemode()` and normalizes its outcome. -/
def wrappedJs (js : String) : String :=
  "\n" ++ js ++
  "\n\nexport default \x7b\n  async fetch(request) \x7b\n    try \x7b\n      if (typeof codemode !== \x27function\x27) \x7b\n        return Response.json(\x7b\n          success: false,\n          error: \"No \x27codemode\x27 function found. Your code must define: async function codemode() \x7b ... \x7d\"\n        \x7d, \x7b status: 400 \x7d);\n      \x7d\n      \n      const result = await codemode();\n      \n      return Response.json(\x7b\n        success: true,\n        result: result\n      \x7d);\n    \x7d catch (error) \x7b\n      return Response.json(\x7b\n        success: false,\n        error: error instanceof Error ? error.message : String(error)\n      \x7d, \x7b status: 500 \x7d);\n    \x7d\n  \x7d\n\x7d;\n"

/-- The observable outcome of the guest program inside the sandbox: the entry
capability `codemode` is missing, returns a value, throws an `Error` with a
message, or throws a non-`Error` value (already stringified). -/
inductive GuestOutcome where
  | noEntry
  | returns (v : JsValue)
  | throwsError (message : String)
  | throwsValue (stringified : String)

/-- Modelled from the spec: the behavior of the fixed harness synthesized by
`wrappedJs` when the sandbox executes it (`worker.ts` lines 124-147 under the
host JS semantics): a missing entry capability yields a structured 400
failure, a returned value yields a 200 success, and a thrown failure is
caught and converted to a 500 failure carrying the error message (or the
stringified thrown value). -/
def harnessResponse : GuestOutcome → Nat × ApiResponse
  | GuestOutcome.noEntry =>
      (400, ApiResponse.failure
        "No \x27codemode\x27 function found. Your code must define: async function codemode() \x7b ... \x7d"
        none)
  | GuestOutcome.returns v => (200, ApiResponse.success v)
  | GuestOutcome.throwsError m => (500, ApiResponse.failure m none)
  | GuestOutcome.throwsValue s => (500, ApiResponse.failure s none)

/-- Lines 63-182 of the `fetch` handler of `worker.ts`, from `code.trim()`
onward: the GET info page, the empty-body fast failure, the check gate, and
the sandbox dispatch with its catch-all. -/
def afterExtract (p : Platform) (req : HttpRequest) (code0 : Option JsValue) :
    Except String HandlerOut :=
  match jsTrimCall code0 with
  | Except.error e => Except.error e
  | Except.ok code =>
    if code = "" ∧ req.method = "GET" then
      Except.ok
        { response :=
            { status := 200
              headers := [("Content-Type", "text/html"),
                          ("Access-Control-Allow-Origin", "*")]
              body := RespBody.html infoPageHtml }
          compileCalls := []
          dispatched := 0 }
    else if jsTrim code = "" then
      Except.ok
        { response := jsonResponse
            (ApiResponse.failure
              "Request body is empty. Please provide TypeScript code." none) 400
          compileCalls := []
          dispatched := 0 }
    else
      let compileResult := compileCode p.engine code
      if compileResult.success = false then
        Except.ok
          { response := jsonResponse
              (ApiResponse.failure
                ("TypeScript compilation failed:\n" ++
                  formatDiagnostics compileResult.diagnostics)
                (some compileResult.diagnostics)) 400
            compileCalls := [code]
            dispatched := 0 }
      else
        match p.sandboxRun (wrappedJs compileResult.js) with
        | Except.ok (status, result) =>
            Except.ok
              { response := jsonResponse result status
                compileCalls := [code]
                dispatched := 1 }
        | Except.error e =>
            Except.ok
              { response := jsonResponse
                  (ApiResponse.failure ("Execution failed: " ++ e) none) 500
                compileCalls := [code]
                dispatched := 1 }

/-- The `fetch` handler of `worker.ts` (default export, lines 25-182): the
`/stub-stub` route, the CORS preflight, the GET/POST source extraction, the
405 fallback, and the rest of the pipeline via `afterExtract`.  An
`Except.error` result is an uncaught exception escaping the handler. -/
def workerFetch (p : Platform) (req : HttpRequest) : Except String HandlerOut :=
  if req.pathname = "/stub-stub" then
    match p.stubDemo req with
    | Except.ok resp =>
        Except.ok { response := resp, compileCalls := [], dispatched := 0 }
    | Except.error e => Except.error e
  else if req.method = "OPTIONS" then
    Except.ok
      { response :=
          { status := 200, headers := corsPreflightHeaders
            body := RespBody.empty }
        compileCalls := []
        dispatched := 0 }
  else if req.method = "GET" then
    afterExtract p req (some (JsValue.str (req.queryCode.getD "")))
  else if req.method = "POST" then
    if jsStartsWith req.body "\x7b" then
      match p.jsonParse req.body with
      | Except.error e => Except.error e
      | Except.ok parsed =>
        match jsGetField parsed "code" with
        | Except.error e => Except.error e
        | Except.ok c => afterExtract p req c
    else
      afterExtract p req (some (JsValue.str req.body))
  else
    Except.ok
      { response := jsonResponse (ApiResponse.failure "Method not allowed" none) 405
        compileCalls := []
        dispatched := 0 }

/-- The compile calls recorded by a handler run (empty when the handler threw). -/
def compileCallsOf : Except String HandlerOut → List String
  | Except.ok r => r.compileCalls
  | Except.error _ => []

/-- Whether a response body is a serialized JSON envelope. -/
def isJsonBody : RespBody → Bool
  | RespBody.json _ => true
  | _ => false

lemma trimList_eq_rdrop (l : List Char) :
    trimList l =
      List.rdropWhile Char.isWhitespace (List.dropWhile Char.isWhitespace l) := rfl

lemma dropWhile_trimList (l : List Char) :
    List.dropWhile Char.isWhitespace (trimList l) = trimList l := by
  rw [trimList_eq_rdrop]
  rw [List.dropWhile_eq_self_iff]
  intro hl
  have hpre := List.rdropWhile_prefix Char.isWhitespace
    (List.dropWhile Char.isWhitespace l)
  have hlen : 0 < (List.dropWhile Char.isWhitespace l).length :=
    lt_of_lt_of_le hl hpre.length_le
  have hget :
      (List.rdropWhile Char.isWhitespace
        (List.dropWhile Char.isWhitespace l)).get ⟨0, hl⟩ =
      (List.dropWhile Char.isWhitespace l).get ⟨0, hlen⟩ := by
    simpa [List.get_eq_getElem] using hpre.getElem hl
  rw [hget]
  exact List.dropWhile_get_zero_not _ _ hlen

lemma trimList_idem (l : List Char) : trimList (trimList l) = trimList l := by
  rw [trimList_eq_rdrop (trimList l), dropWhile_trimList, trimList_eq_rdrop]
  exact List.rdropWhile_idempotent _ _

lemma jsTrim_idem (s : String) : jsTrim (jsTrim s) = jsTrim s := by
  unfold jsTrim
  rw [show (String.mk (trimList s.toList)).toList = trimList s.toList from rfl]
  rw [trimList_idem]

lemma all_ws_of_trimList_nil (l : List Char) (h : trimList l = []) :
    ∀ c ∈ l, Char.isWhitespace c := by
  rw [trimList_eq_rdrop] at h
  have hall := List.rdropWhile_eq_nil_iff.1 h
  have hdw : List.dropWhile Char.isWhitespace l = [] := by
    cases hdw : List.dropWhile Char.isWhitespace l with
    | nil => rfl
    | cons a t =>
      exfalso
      have h0 : 0 < (List.dropWhile Char.isWhitespace l).length := by
        rw [hdw]; simp
      have hna := List.dropWhile_get_zero_not Char.isWhitespace l h0
      exact hna (hall _ (List.get_mem _ _ h0))
  exact List.dropWhile_eq_nil_iff.1 hdw

lemma jsStartsWith_false_of_trim_empty (s : String) (h : jsTrim s = "") :
    jsStartsWith s "\x7b" = false := by
  have hnil : trimList s.toList = [] := congrArg String.data h
  by_contra hb
  rw [Bool.not_eq_false] at hb
  have hpre : ("\x7b" : String).toList <+: s.toList :=
    List.isPrefixOf_iff_prefix.1 hb
  have hmem : '\x7b' ∈ s.toList := hpre.subset (by decide)
  have hws := all_ws_of_trimList_nil s.toList hnil '\x7b' hmem
  exact absurd hws (by decide)

lemma lineAndCharacter_single_line (src : String) (k : Nat)
    (hnl : '\n' ∉ src.toList) (hk : k ≤ src.toList.length) :
    lineAndCharacterOfPosition src k = (0, k) := by
  unfold lineAndCharacterOfPosition
  dsimp only
  have hcount : (src.toList.take k).count '\n' = 0 :=
    List.count_eq_zero.2 (fun hmem => hnl (List.take_subset _ _ hmem))
  have htake :
      (src.toList.take k).reverse.takeWhile (fun c => c ≠ '\n') =
      (src.toList.take k).reverse := by
    rw [List.takeWhile_eq_self_iff]
    intro c hc
    have hcmem : c ∈ src.toList :=
      List.take_subset _ _ (List.mem_reverse.1 hc)
    have : c ≠ '\n' := fun hcn => hnl (hcn ▸ hcmem)
    simpa using this
  rw [hcount, htake]
  simp [List.length_take, Nat.min_eq_left hk]
  exact hk

lemma convertDiagnostic_pos_together (src : String) (d : RawDiagnostic) :
    (convertDiagnostic src d).line.isSome = (convertDiagnostic src d).column.isSome := by
  unfold convertDiagnostic
  dsimp only
  cases d.hasFile <;> cases d.start <;> simp

lemma compileCode_pos_together (eng : Engine) (code : String) :
    ∀ d ∈ (compileCode eng code).diagnostics,
      d.line.isSome = d.column.isSome := by
  intro d hd
  unfold compileCode compileCodeAux at hd
  dsimp only at hd
  by_cases h :
      ((eng.preEmit code).map (convertDiagnostic code)).any
        (fun d => d.category == Category.error) = true
  · rw [if_pos h] at hd
    dsimp only at hd
    rcases List.mem_map.1 hd with ⟨r, _, hr⟩
    rw [← hr]
    exact convertDiagnostic_pos_together code r
  · rw [if_neg h] at hd
    dsimp only at hd
    rcases List.mem_append.1 hd with hpre | hemit
    · rcases List.mem_map.1 hpre with ⟨r, _, hr⟩
      rw [← hr]
      exact convertDiagnostic_pos_together code r
    · rcases List.mem_map.1 hemit with ⟨r, _, hr⟩
      rw [← hr]
      rfl

lemma formatDiagnostics_eq_spec (ds : List Diagnostic)
    (h : ∀ d ∈ ds, d.line.isSome = d.column.isSome) :
    formatDiagnostics ds = String.intercalate "\n" (ds.map specDiagnosticLine) := by
  unfold formatDiagnostics
  congr 1
  apply List.map_congr_left
  intro d hd
  have hdc := h d hd
  dsimp only
  simp only [specDiagnosticLine, categoryName]
  cases hl : d.line with
  | none =>
      cases hc : d.column with
      | none =>
          cases d.category <;> simp [hl, hc]
      | some c => rw [hl, hc] at hdc; simp at hdc
  | some l =>
      cases hc : d.column with
      | none => rw [hl, hc] at hdc; simp at hdc
      | some c =>
          cases d.category <;> simp [hl, hc]

/-- An engine run on well-typed source: no diagnostics, one emitted `.js`
file. -/
def engineOk : Engine :=
  { preEmit := fun _ => []
    emit := fun _ =>
      { writes := [("/input.js", "async function codemode() \x7b return 2; \x7d")]
        diagnostics := [] } }

/-- An error-category diagnostic produced only by the emit pass (an internal
lowering failure), in the engine-native form `compileCode` reads. -/
def rawEmitError : RawDiagnostic :=
  { messageText := MessageText.str "The emitter failed"
    code := 9007
    category := tsCategoryError
    hasFile := false
    start := none }

/-- An engine whose pre-emit pass is clean but whose emit pass reports an
error-category diagnostic. -/
def engineEmitError : Engine :=
  { preEmit := fun _ => []
    emit := fun _ => { writes := [], diagnostics := [rawEmitError] } }

/-- The engine-native diagnostic for `const x: number = "hello";`: TS2322,
error category, on the source file at absolute offset 6. -/
def rawTypeError : RawDiagnostic :=
  { messageText :=
      MessageText.str "Type \x27string\x27 is not assignable to type \x27number\x27."
    code := 2322
    category := tsCategoryError
    hasFile := true
    start := some 6 }

/-- An engine reporting one pre-emit type error at offset 6. -/
def engineTypeError : Engine :=
  { preEmit := fun _ => [rawTypeError]
    emit := fun _ => { writes := [], diagnostics := [] } }

/-- The observable response of the out-of-scope `/stub-stub` demo route: the
rendered HTML comparison page, status 200 (`handleStubStubDemo`). -/
def demoResponse : HttpResponse :=
  { status := 200
    headers := [("Content-Type", "text/html")]
    body := RespBody.html "stubStub demo page" }

/-- A concrete platform for witnesses and counterexamples: clean engine, a
JSON parser that rejects malformed text (as `JSON.parse` does on the
incomplete object `"\x7b"`), a sandbox that faithfully runs the harness over a
guest returning `2`, and the demo route returning its rendered page. -/
def basePlatform : Platform :=
  { engine := engineOk
    jsonParse := fun _ => Except.error "SyntaxError: unexpected end of JSON input"
    sandboxRun := fun _ =>
      Except.ok (harnessResponse (GuestOutcome.returns (JsValue.num 2)))
    stubDemo := fun _ => Except.ok demoResponse }

/-- C1 counterexample: with a clean pre-emit pass but an error-category emit
diagnostic, `compileCode` returns `success = true` while the final
diagnostics list does contain an element with category `error` — so
`success` is not equivalent to the absence of errors in the returned list. -/
theorem compileCode_emit_error_breaks_success_iff :
    (compileCode engineEmitError "const x = 1;").success = true ∧
    ((compileCode engineEmitError "const x = 1;").diagnostics.any
      (fun d => d.category == Category.error)) = true :=
  ⟨rfl, rfl⟩

/-- C1 (amended): `success` is true iff no element of the converted pre-emit
diagnostics has category `error`; diagnostics appended during emission do not
participate in the equivalence. -/
theorem compileCode_success_iff_no_preEmit_error (eng : Engine) (code : String) :
    (compileCode eng code).success = true ↔
      ∀ d ∈ (eng.preEmit code).map (convertDiagnostic code),
        d.category ≠ Category.error := by
  unfold compileCode compileCodeAux
  dsimp only
  by_cases h :
      ((eng.preEmit code).map (convertDiagnostic code)).any
        (fun d => d.category == Category.error) = true
  · rw [if_pos h]
    dsimp only
    rw [h]
    simp only [Bool.not_true]
    constructor
    · intro hfalse
      exact absurd hfalse (by decide)
    · intro hall
      exfalso
      rcases List.any_eq_true.1 h with ⟨d, hd, hbe⟩
      exact hall d hd (beq_iff_eq.1 hbe)
  · rw [if_neg h]
    dsimp only
    have hf : ((eng.preEmit code).map (convertDiagnostic code)).any
        (fun d => d.category == Category.error) = false :=
      Bool.eq_false_iff.2 h
    rw [hf]
    simp only [Bool.not_false]
    constructor
    · intro _ d hd hcat
      have := List.any_eq_false.1 hf d hd
      exact this (beq_iff_eq.2 hcat)
    · intro _
      trivial

/-- C1 witness: the amended equivalence applied to a concrete clean engine. -/
theorem compileCode_success_iff_no_preEmit_error_witness :
    (compileCode engineOk "const x = 1;").success = true :=
  (compileCode_success_iff_no_preEmit_error engineOk "const x = 1;").2
    (by intro d hd; simp [engineOk] at hd)

/-- C2: the emit pass is attempted exactly when no converted pre-emit
diagnostic has category `error` (warnings, suggestions and messages do not
block emission), and the returned `js` text is non-empty only when
`success` is true. -/
theorem compileCode_emit_gate (eng : Engine) (code : String) :
    ((compileCodeAux eng code).2 = true ↔
      ∀ d ∈ (eng.preEmit code).map (convertDiagnostic code),
        d.category ≠ Category.error) ∧
    ((compileCode eng code).js ≠ "" → (compileCode eng code).success = true) := by
  unfold compileCode compileCodeAux
  dsimp only
  by_cases h :
      ((eng.preEmit code).map (convertDiagnostic code)).any
        (fun d => d.category == Category.error) = true
  · rw [if_pos h]
    dsimp only
    constructor
    · constructor
      · intro hfalse
        exact absurd hfalse (by decide)
      · intro hall
        exfalso
        rcases List.any_eq_true.1 h with ⟨d, hd, hbe⟩
        exact hall d hd (beq_iff_eq.1 hbe)
    · intro hjs
      exact absurd rfl hjs
  · rw [if_neg h]
    dsimp only
    have hf : ((eng.preEmit code).map (convertDiagnostic code)).any
        (fun d => d.category == Category.error) = false :=
      Bool.eq_false_iff.2 h
    constructor
    · constructor
      · intro _ d hd hcat
        have := List.any_eq_false.1 hf d hd
        exact this (beq_iff_eq.2 hcat)
      · intro _
        trivial
    · intro _
      rw [hf]
      rfl

/-- C2 witness: on a clean engine the emitted `js` is non-empty and `success`
is concluded true via the gate. -/
theorem compileCode_emit_gate_witness :
    (compileCode engineOk "1 + 1").success = true :=
  (compileCode_emit_gate engineOk "1 + 1").2 (by decide)

lemma afterExtract_str_json_body (p : Platform) (req : HttpRequest) (s : String)
    (hm : req.method = "POST") :
    (afterExtract p req (some (JsValue.str s))).map
      (fun r => isJsonBody r.response.body) = Except.ok true := by
  unfold afterExtract
  rw [show jsTrimCall (some (JsValue.str s)) = Except.ok (jsTrim s) from rfl]
  dsimp only
  rw [if_neg (by simp [hm])]
  by_cases h2 : jsTrim (jsTrim s) = ""
  · rw [if_pos h2]
    rfl
  · rw [if_neg h2]
    by_cases h3 : (compileCode p.engine (jsTrim s)).success = false
    · rw [if_pos h3]
      rfl
    · rw [if_neg h3]
      cases hsr : p.sandboxRun (wrappedJs (compileCode p.engine (jsTrim s)).js) with
      | ok pr =>
          cases pr with
          | mk st res => rfl
      | error e => rfl

/-- C3 counterexample: a POST body consisting of the single character `\x7b`
is malformed JSON (`JSON.parse` throws on it by the JSON grammar); the
handler passes it to `JSON.parse` uncaught, so the fetch handler itself
throws instead of returning any response. -/
theorem workerFetch_malformed_json_throws :
    workerFetch basePlatform
      { method := "POST", pathname := "/", queryCode := none, body := "\x7b" } =
    Except.error "SyntaxError: unexpected end of JSON input" := rfl

/-- C3 (amended): for a POST request outside `/stub-stub` whose body, when it
starts with `\x7b`, parses as a JSON object with a string `code` property, the
handler returns (does not throw) and the response body is a JSON envelope;
bodies that are malformed JSON or whose `code` is not a string instead make
the handler throw. -/
theorem workerFetch_wellformed_post_returns_json (p : Platform)
    (req : HttpRequest)
    (hpath : req.pathname ≠ "/stub-stub") (hm : req.method = "POST")
    (hjson : jsStartsWith req.body "\x7b" = true →
      ∃ v s, p.jsonParse req.body = Except.ok v ∧
        jsGetField v "code" = Except.ok (some (JsValue.str s))) :
    (workerFetch p req).map (fun r => isJsonBody r.response.body) =
      Except.ok true := by
  unfold workerFetch
  rw [if_neg hpath, hm]
  rw [if_neg (by decide : ¬ ("POST" : String) = "OPTIONS")]
  rw [if_neg (by decide : ¬ ("POST" : String) = "GET")]
  rw [if_pos rfl]
  cases hsw : jsStartsWith req.body "\x7b" with
  | false =>
      rw [if_neg (by simp)]
      exact afterExtract_str_json_body p req req.body hm
  | true =>
      rw [if_pos rfl]
      rcases hjson hsw with ⟨v, s, hv, hc⟩
      rw [hv]
      dsimp only
      rw [hc]
      dsimp only
      exact afterExtract_str_json_body p req s hm

/-- C3 witness: a well-formed plain-text POST produces a JSON envelope. -/
theorem workerFetch_wellformed_post_returns_json_witness :
    (workerFetch basePlatform
      { method := "POST", pathname := "/", queryCode := none,
        body := "async function codemode() \x7b return 1 + 1; \x7d" }).map
      (fun r => isJsonBody r.response.body) = Except.ok true :=
  workerFetch_wellformed_post_returns_json basePlatform
    { method := "POST", pathname := "/", queryCode := none,
      body := "async function codemode() \x7b return 1 + 1; \x7d" }
    (by decide) rfl (fun h => absurd h (by decide))

/-- C4: a POST whose body trims to the empty string yields status 400 with
the empty-body failure message, and neither `compileCode` nor the sandbox
loader is invoked (the recorded collaborator calls are zero). -/
theorem workerFetch_empty_post_body (p : Platform) (req : HttpRequest)
    (hpath : req.pathname ≠ "/stub-stub") (hm : req.method = "POST")
    (hempty : jsTrim req.body = "") :
    workerFetch p req = Except.ok
      { response := jsonResponse
          (ApiResponse.failure
            "Request body is empty. Please provide TypeScript code." none) 400
        compileCalls := []
        dispatched := 0 } := by
  unfold workerFetch
  rw [if_neg hpath, hm]
  rw [if_neg (by decide : ¬ ("POST" : String) = "OPTIONS")]
  rw [if_neg (by decide : ¬ ("POST" : String) = "GET")]
  rw [if_pos rfl]
  rw [jsStartsWith_false_of_trim_empty req.body hempty]
  rw [if_neg (by simp)]
  unfold afterExtract
  rw [show jsTrimCall (some (JsValue.str req.body)) =
        Except.ok (jsTrim req.body) from rfl]
  dsimp only
  rw [hempty]
  rw [if_neg (by simp [hm])]
  rw [if_pos (show jsTrim "" = "" from rfl)]

/-- C4 witness: a whitespace-only POST body gives the 400 empty-body failure
with zero collaborator calls. -/
theorem workerFetch_empty_post_body_witness :
    workerFetch basePlatform
      { method := "POST", pathname := "/", queryCode := none, body := "   " } =
    Except.ok
      { response := jsonResponse
          (ApiResponse.failure
            "Request body is empty. Please provide TypeScript code." none) 400
        compileCalls := []
        dispatched := 0 } :=
  workerFetch_empty_post_body basePlatform
    { method := "POST", pathname := "/", queryCode := none, body := "   " }
    (by decide) rfl (by decide)

/-- C5: when the check passes and the sandbox runs the synthesized harness
over a guest whose `codemode` throws an `Error`, the handler's response is a
Failure with status 500 whose error equals the thrown error's message, and
the envelope carries no diagnostics. -/
theorem workerFetch_guest_throw (p : Platform) (req : HttpRequest) (m : String)
    (hpath : req.pathname ≠ "/stub-stub") (hm : req.method = "POST")
    (hsw : jsStartsWith req.body "\x7b" = false)
    (hne : jsTrim req.body ≠ "")
    (hok : (compileCode p.engine (jsTrim req.body)).success = true)
    (hrun : p.sandboxRun (wrappedJs (compileCode p.engine (jsTrim req.body)).js) =
      Except.ok (harnessResponse (GuestOutcome.throwsError m))) :
    (workerFetch p req).map (fun r => (r.response.status, r.response.body)) =
      Except.ok (500, RespBody.json (ApiResponse.failure m none)) := by
  unfold workerFetch
  rw [if_neg hpath, hm]
  rw [if_neg (by decide : ¬ ("POST" : String) = "OPTIONS")]
  rw [if_neg (by decide : ¬ ("POST" : String) = "GET")]
  rw [if_pos rfl]
  rw [hsw]
  rw [if_neg (by simp)]
  unfold afterExtract
  rw [show jsTrimCall (some (JsValue.str req.body)) =
        Except.ok (jsTrim req.body) from rfl]
  dsimp only
  rw [if_neg (by simp [hm])]
  rw [if_neg (by rw [jsTrim_idem]; exact hne)]
  rw [if_neg (by rw [hok]; decide)]
  rw [hrun]
  rfl

/-- A platform whose sandbox reports the guest throwing `new Error("boom")`
through the harness. -/
def boomPlatform : Platform :=
  { basePlatform with
    sandboxRun := fun _ =>
      Except.ok (harnessResponse (GuestOutcome.throwsError "boom")) }

/-- C5 witness: throwing `new Error("boom")` yields the 500 Failure with
error "boom" and no diagnostics key. -/
theorem workerFetch_guest_throw_witness :
    (workerFetch boomPlatform
      { method := "POST", pathname := "/", queryCode := none,
        body := "async function codemode() \x7b throw new Error(\x27boom\x27); \x7d" }).map
      (fun r => (r.response.status, r.response.body)) =
      Except.ok (500, RespBody.json (ApiResponse.failure "boom" none)) :=
  workerFetch_guest_throw boomPlatform
    { method := "POST", pathname := "/", queryCode := none,
      body := "async function codemode() \x7b throw new Error(\x27boom\x27); \x7d" }
    "boom" (by decide) rfl (by decide) (by decide) rfl rfl

/-- A platform whose JSON parser accepts every body as the object
`\x7b"code": "abc"\x7d` — used to show the parser is not even consulted for a
body with leading whitespace. -/
def jsonOkPlatform : Platform :=
  { basePlatform with
    jsonParse := fun _ => Except.ok (JsValue.obj [("code", JsValue.str "abc")]) }

/-- C6 counterexample: a POST body of leading whitespace followed by a JSON
object is NOT decoded as JSON — `startsWith` is checked on the raw body — so
the check receives the trimmed raw text of the body, not the `code` field
(here it would have been "abc" had the body been decoded as JSON). -/
theorem workerFetch_leading_ws_json_not_decoded :
    compileCallsOf (workerFetch jsonOkPlatform
      { method := "POST", pathname := "/", queryCode := none,
        body := " \x7b\"code\": \"abc\"\x7d" }) =
      ["\x7b\"code\": \"abc\"\x7d"] ∧
    compileCallsOf (workerFetch jsonOkPlatform
      { method := "POST", pathname := "/", queryCode := none,
        body := " \x7b\"code\": \"abc\"\x7d" }) ≠ ["abc"] :=
  by
  refine ⟨rfl, ?_⟩
  intro h
  rw [show compileCallsOf (workerFetch jsonOkPlatform
        { method := "POST", pathname := "/", queryCode := none,
          body := " \x7b\"code\": \"abc\"\x7d" }) =
        ["\x7b\"code\": \"abc\"\x7d"] from rfl] at h
  exact absurd h (by decide)

lemma workerFetch_post_raw (p : Platform) (req : HttpRequest)
    (hpath : req.pathname ≠ "/stub-stub") (hm : req.method = "POST")
    (hsw : jsStartsWith req.body "\x7b" = false) :
    workerFetch p req = afterExtract p req (some (JsValue.str req.body)) := by
  unfold workerFetch
  rw [if_neg hpath, hm]
  rw [if_neg (by decide : ¬ ("POST" : String) = "OPTIONS")]
  rw [if_neg (by decide : ¬ ("POST" : String) = "GET")]
  rw [if_pos rfl]
  rw [hsw]
  rw [if_neg (by simp)]

lemma workerFetch_post_json (p : Platform) (req : HttpRequest)
    (hpath : req.pathname ≠ "/stub-stub") (hm : req.method = "POST")
    (hsw : jsStartsWith req.body "\x7b" = true)
    (v : JsValue) (c : Option JsValue)
    (hv : p.jsonParse req.body = Except.ok v)
    (hc : jsGetField v "code" = Except.ok c) :
    workerFetch p req = afterExtract p req c := by
  unfold workerFetch
  rw [if_neg hpath, hm]
  rw [if_neg (by decide : ¬ ("POST" : String) = "OPTIONS")]
  rw [if_neg (by decide : ¬ ("POST" : String) = "GET")]
  rw [if_pos rfl]
  rw [hsw]
  rw [if_pos rfl]
  rw [hv]
  dsimp only
  rw [hc]

lemma afterExtract_congr (p q : Platform) (req : HttpRequest)
    (c0 : Option JsValue)
    (he : q.engine = p.engine) (hs : q.sandboxRun = p.sandboxRun) :
    afterExtract q req c0 = afterExtract p req c0 := by
  unfold afterExtract
  rw [he, hs]

/-- C6 (amended): JSON decoding is chosen exactly by whether the RAW
(untrimmed) body starts with `\x7b`: when it does not (e.g. leading
whitespace before the brace), the handler treats the body as raw source and
its result is independent of the JSON parser; when it does and the body
parses to an object with a string `code` field, the pipeline continues with
that field's value. -/
theorem workerFetch_json_detection_on_raw_body (p : Platform)
    (req : HttpRequest)
    (hpath : req.pathname ≠ "/stub-stub") (hm : req.method = "POST") :
    (jsStartsWith req.body "\x7b" = false →
      ∀ q : Platform, q.engine = p.engine → q.sandboxRun = p.sandboxRun →
        workerFetch q req = workerFetch p req) ∧
    (∀ v s, jsStartsWith req.body "\x7b" = true →
      p.jsonParse req.body = Except.ok v →
      jsGetField v "code" = Except.ok (some (JsValue.str s)) →
      workerFetch p req = afterExtract p req (some (JsValue.str s))) := by
  constructor
  · intro hsw q he hs
    rw [workerFetch_post_raw q req hpath hm hsw,
        workerFetch_post_raw p req hpath hm hsw]
    exact afterExtract_congr p q req (some (JsValue.str req.body)) he hs
  · intro v s hsw hv hc
    exact workerFetch_post_json p req hpath hm hsw v
      (some (JsValue.str s)) hv hc

/-- C6 witness: a body that does start with the brace and parses to an
object with string `code` continues the pipeline with that field. -/
theorem workerFetch_json_detection_on_raw_body_witness :
    workerFetch jsonOkPlatform
      { method := "POST", pathname := "/", queryCode := none,
        body := "\x7b\"code\": \"abc\"\x7d" } =
    afterExtract jsonOkPlatform
      { method := "POST", pathname := "/", queryCode := none,
        body := "\x7b\"code\": \"abc\"\x7d" }
      (some (JsValue.str "abc")) :=
  (workerFetch_json_detection_on_raw_body jsonOkPlatform
    { method := "POST", pathname := "/", queryCode := none,
      body := "\x7b\"code\": \"abc\"\x7d" }
    (by decide) rfl).2
    (JsValue.obj [("code", JsValue.str "abc")]) "abc" (by decide) rfl rfl

/-- C7 counterexample: an OPTIONS request outside `/stub-stub` is answered
with status 200 (the `Response` constructor default), not 204; and a DELETE
to `/stub-stub` is routed to the demo page, not answered 405. -/
theorem workerFetch_options_status_200_not_204 :
    (workerFetch basePlatform
      { method := "OPTIONS", pathname := "/", queryCode := none, body := "" }).map
        (fun r => r.response.status) = Except.ok 200 ∧
    (workerFetch basePlatform
      { method := "OPTIONS", pathname := "/", queryCode := none, body := "" }).map
        (fun r => r.response.status) ≠ Except.ok 204 ∧
    (workerFetch basePlatform
      { method := "DELETE", pathname := "/stub-stub", queryCode := none,
        body := "" }).map
        (fun r => r.response.status) ≠ Except.ok 405 :=
  ⟨rfl,
   by intro h; exact absurd (Except.ok.inj h) (by decide),
   by intro h; exact absurd (Except.ok.inj h) (by decide)⟩

/-- C7 (amended): for every request whose path is not `/stub-stub`: OPTIONS
is answered with an empty status-200 response carrying the permissive
preflight headers, and any method other than GET, POST and OPTIONS gets the
405 method-not-allowed Failure. -/
theorem workerFetch_method_dispatch (p : Platform) (req : HttpRequest)
    (hpath : req.pathname ≠ "/stub-stub") :
    (req.method = "OPTIONS" →
      workerFetch p req = Except.ok
        { response := { status := 200, headers := corsPreflightHeaders,
                        body := RespBody.empty }
          compileCalls := [], dispatched := 0 }) ∧
    (req.method ≠ "GET" → req.method ≠ "POST" → req.method ≠ "OPTIONS" →
      workerFetch p req = Except.ok
        { response := jsonResponse (ApiResponse.failure "Method not allowed" none) 405
          compileCalls := [], dispatched := 0 }) := by
  constructor
  · intro hm
    unfold workerFetch
    rw [if_neg hpath, hm, if_pos rfl]
  · intro hg hpo ho
    unfold workerFetch
    rw [if_neg hpath, if_neg ho, if_neg hg, if_neg hpo]

/-- C7 witness: the preflight answer at a concrete OPTIONS request. -/
theorem workerFetch_method_dispatch_witness :
    workerFetch basePlatform
      { method := "OPTIONS", pathname := "/", queryCode := none, body := "" } =
    Except.ok
      { response := { status := 200, headers := corsPreflightHeaders,
                      body := RespBody.empty }
        compileCalls := [], dispatched := 0 } :=
  (workerFetch_method_dispatch basePlatform
    { method := "OPTIONS", pathname := "/", queryCode := none, body := "" }
    (by decide)).1 rfl

/-- C8: a positioned engine diagnostic is converted to 1-indexed line and
0-indexed column; for a single-line source with the diagnostic at absolute
offset `k`, the produced diagnostic has `line = 1` and `column = k`. -/
theorem compileCode_position_conversion (eng : Engine) (code : String)
    (d : RawDiagnostic) (k : Nat)
    (hpre : eng.preEmit code = [d])
    (hfile : d.hasFile = true) (hstart : d.start = some k)
    (hsingle : '\n' ∉ code.toList) (hk : k ≤ code.toList.length) :
    ((compileCode eng code).diagnostics.head?).map
      (fun dc => (dc.line, dc.column)) = some (some 1, some k) := by
  have hconv : convertDiagnostic code d =
      { message := flattenDiagnosticMessage d.messageText
        code := d.code
        category := getCategoryString d.category
        line := some 1
        column := some k } := by
    unfold convertDiagnostic
    rw [hfile, hstart]
    dsimp only [Option.map]
    rw [lineAndCharacter_single_line code k hsingle hk]
  unfold compileCode compileCodeAux
  rw [hpre]
  simp only [List.map_cons, List.map_nil]
  by_cases h :
      ([convertDiagnostic code d]).any
        (fun x => x.category == Category.error) = true
  · rw [if_pos h]
    dsimp only
    rw [hconv]
    rfl
  · rw [if_neg h]
    dsimp only
    rw [hconv]
    rfl

/-- C8 witness: `const x: number = "hello";` with the TS2322 diagnostic at
offset 6 produces `line = 1`, `column = 6`. -/
theorem compileCode_position_conversion_witness :
    ((compileCode engineTypeError "const x: number = \"hello\";").diagnostics.head?).map
      (fun dc => (dc.line, dc.column)) = some (some 1, some 6) :=
  compileCode_position_conversion engineTypeError "const x: number = \"hello\";"
    rawTypeError 6 rfl rfl rfl (by decide) (by decide)

/-- C9: on a check failure the response is 400 and its error string is the
literal compilation-failed header followed by the lines
`<category> TS<code>[:<line>:<column>]: <message>` (location present exactly
when the diagnostic has a position) joined by newlines, with the diagnostics
list attached. -/
theorem workerFetch_check_failure_error_format (p : Platform)
    (req : HttpRequest)
    (hpath : req.pathname ≠ "/stub-stub") (hm : req.method = "POST")
    (hsw : jsStartsWith req.body "\x7b" = false)
    (hne : jsTrim req.body ≠ "")
    (hfail : (compileCode p.engine (jsTrim req.body)).success = false) :
    (workerFetch p req).map (fun r => (r.response.status, r.response.body)) =
      Except.ok (400, RespBody.json (ApiResponse.failure
        ("TypeScript compilation failed:\n" ++
          String.intercalate "\n"
            ((compileCode p.engine (jsTrim req.body)).diagnostics.map
              specDiagnosticLine))
        (some (compileCode p.engine (jsTrim req.body)).diagnostics))) := by
  rw [workerFetch_post_raw p req hpath hm hsw]
  unfold afterExtract
  rw [show jsTrimCall (some (JsValue.str req.body)) =
        Except.ok (jsTrim req.body) from rfl]
  dsimp only
  rw [if_neg (by simp [hm])]
  rw [if_neg (by rw [jsTrim_idem]; exact hne)]
  rw [if_pos hfail]
  rw [formatDiagnostics_eq_spec _
    (compileCode_pos_together p.engine (jsTrim req.body))]
  rfl

/-- A platform whose engine reports the TS2322 pre-emit type error. -/
def typeErrPlatform : Platform := { basePlatform with engine := engineTypeError }

/-- C9 witness: the check-failure response format at a concrete failing
input. -/
theorem workerFetch_check_failure_error_format_witness :
    (workerFetch typeErrPlatform
      { method := "POST", pathname := "/", queryCode := none,
        body := "const x: number = \"hello\";" }).map
      (fun r => (r.response.status, r.response.body)) =
      Except.ok (400, RespBody.json (ApiResponse.failure
        ("TypeScript compilation failed:\n" ++
          String.intercalate "\n"
            ((compileCode typeErrPlatform.engine
              (jsTrim "const x: number = \"hello\";")).diagnostics.map
              specDiagnosticLine))
        (some (compileCode typeErrPlatform.engine
          (jsTrim "const x: number = \"hello\";")).diagnostics))) :=
  workerFetch_check_failure_error_format typeErrPlatform
    { method := "POST", pathname := "/", queryCode := none,
      body := "const x: number = \"hello\";" }
    (by decide) rfl (by decide) (by decide) rfl

lemma compileCalls_afterExtract_trimmed (p : Platform) (req : HttpRequest)
    (c0 : Option JsValue) :
    ∀ s ∈ compileCallsOf (afterExtract p req c0), jsTrim s = s := by
  intro s hs
  unfold afterExtract at hs
  cases hc : jsTrimCall c0 with
  | error e =>
      rw [hc] at hs
      simp [compileCallsOf] at hs
  | ok code =>
      rw [hc] at hs
      dsimp only at hs
      have hcode : jsTrim code = code := by
        cases c0 with
        | none => exact absurd hc (by simp [jsTrimCall])
        | some v =>
          cases v with
          | str sv =>
              have hveq : code = jsTrim sv := by
                have h2 := hc
                rw [show jsTrimCall (some (JsValue.str sv)) =
                      Except.ok (jsTrim sv) from rfl] at h2
                exact (Except.ok.inj h2).symm
              rw [hveq, jsTrim_idem]
          | null => exact absurd hc (by simp [jsTrimCall])
          | bool b => exact absurd hc (by simp [jsTrimCall])
          | num n => exact absurd hc (by simp [jsTrimCall])
          | arr xs => exact absurd hc (by simp [jsTrimCall])
          | obj fs => exact absurd hc (by simp [jsTrimCall])
      split at hs
      · simp [compileCallsOf] at hs
      · split at hs
        · simp [compileCallsOf] at hs
        · split at hs
          · simp [compileCallsOf] at hs
            rw [hs]
            exact hcode
          · split at hs
            · simp [compileCallsOf] at hs
              rw [hs]
              exact hcode
            · simp [compileCallsOf] at hs
              rw [hs]
              exact hcode

/-- C10: the source text handed to the check is always a trim-fixed string
(the compiler never sees surrounding whitespace), and a raw-text POST hands
the check exactly the trimmed body. -/
theorem workerFetch_compile_input_trimmed (p : Platform) (req : HttpRequest) :
    (∀ s ∈ compileCallsOf (workerFetch p req), jsTrim s = s) ∧
    (req.method = "POST" → req.pathname ≠ "/stub-stub" →
      jsStartsWith req.body "\x7b" = false → jsTrim req.body ≠ "" →
      compileCallsOf (workerFetch p req) = [jsTrim req.body]) := by
  constructor
  · intro s hs
    unfold workerFetch at hs
    split at hs
    · split at hs <;> simp [compileCallsOf] at hs
    · split at hs
      · simp [compileCallsOf] at hs
      · split at hs
        · exact compileCalls_afterExtract_trimmed p req _ s hs
        · split at hs
          · split at hs
            · split at hs
              · simp [compileCallsOf] at hs
              · split at hs
                · simp [compileCallsOf] at hs
                · exact compileCalls_afterExtract_trimmed p req _ s hs
            · exact compileCalls_afterExtract_trimmed p req _ s hs
          · simp [compileCallsOf] at hs
  · intro hm hpath hsw hne
    rw [workerFetch_post_raw p req hpath hm hsw]
    unfold afterExtract
    rw [show jsTrimCall (some (JsValue.str req.body)) =
          Except.ok (jsTrim req.body) from rfl]
    dsimp only
    rw [if_neg (by simp [hm])]
    rw [if_neg (by rw [jsTrim_idem]; exact hne)]
    by_cases hsucc : (compileCode p.engine (jsTrim req.body)).success = false
    · rw [if_pos hsucc]
      rfl
    · rw [if_neg hsucc]
      cases hsr : p.sandboxRun
          (wrappedJs (compileCode p.engine (jsTrim req.body)).js) with
      | ok pr =>
          cases pr with
          | mk st res => rfl
      | error e => rfl

/-- C10 witness: a body with surrounding whitespace is compiled exactly from
its trimmed form. -/
theorem workerFetch_compile_input_trimmed_witness :
    compileCallsOf (workerFetch basePlatform
      { method := "POST", pathname := "/", queryCode := none,
        body := "  async function codemode() \x7b return 2; \x7d  " }) =
      [jsTrim "  async function codemode() \x7b return 2; \x7d  "] :=
  (workerFetch_compile_input_trimmed basePlatform
    { method := "POST", pathname := "/", queryCode := none,
      body := "  async function codemode() \x7b return 2; \x7d  " }).2
    rfl (by decide) (by decide) (by decide)
